import Mathlib

/-!
Shallow embedding of the wallet-manager program of novusweb3/10kWallets
(src/create-wallets.js, class WalletManager), for checking the repository's
specification against the code.

Conventions:
* Amounts are modelled in wei (the chain's minor unit) as `Nat`/`Int`;
  the BN arithmetic used by the source is arbitrary precision, so no
  modular reduction is involved.
* Network interactions are modelled as oracles passed explicitly:
  `polls : Nat → Option Receipt` is the receipt returned by the i-th
  `getTransactionReceipt` read of a confirmation wait,
  `net : Nat → Nat` is the value returned by the i-th
  `getTransactionCount(address, pending)` call of the run.
* Per-wallet funding / return failures (signing, submission, confirmation)
  are modelled by oracles `fundErr, retErr : Wallet → Option String`
  giving the stored error-message string (`error.message`) of the failed
  stage, or `none` when the stage succeeds, exactly mirroring the
  try/catch outcome objects built by `processBatch`.
-/

/-- CONFIG.GAS_LIMIT (create-wallets.js line 7): standard transfer gas limit. -/
def GAS_LIMIT : Nat := 21000

/-- CONFIG.CONFIRMATION_ATTEMPTS (line 8): poll attempts per retry round. -/
def CONFIRMATION_ATTEMPTS : Nat := 20

/-- CONFIG.RETRY_COUNT (line 9): retry rounds of the confirmation wait. -/
def RETRY_COUNT : Nat := 3

/-- A transaction receipt as observed by `waitForConfirmation`:
only its `status` field is inspected. -/
structure Receipt where
  status : Bool
  deriving DecidableEq, Repr

/-- Result of a `waitForConfirmation` call.  `confirmed` carries the receipt
(line 108); `timeoutError` is the thrown confirmation-timeout error
(line 120) escaping the last retry round (line 122); `onChainFailure` is the
error constructed on line 110 for a receipt with status = false — included so
the specification's claim about it can be stated; `noResult` is the undefined
value returned when the retry loop body never runs (retryCount = 0). -/
inductive ConfirmResult where
  | confirmed (r : Receipt)
  | timeoutError
  | onChainFailure
  | noResult
  deriving DecidableEq, Repr

/-- The inner poll loop of `waitForConfirmation` (lines 102-118), polling
receipts at global read indices `start, start+1, ...` for at most the given
number of attempts.  Returns the successful receipt, if any, together with the
number of `getTransactionReceipt` reads performed.

Faithfulness note: the `throw` for a receipt with `status = false`
(line 110) sits inside the same `try` block as the receipt read, so the
`catch` on line 112 catches it, logs it and lets the loop continue — the
control flow after observing a failed-status receipt is identical to the
control flow after observing no receipt at all. -/
def pollRound (polls : Nat → Option Receipt) : Nat → Nat → Option Receipt × Nat
  | _, 0 => (none, 0)
  | start, k + 1 =>
    match polls start with
    | some r =>
      if r.status then (some r, 1)
      else
        let rest := pollRound polls (start + 1) k
        (rest.1, rest.2 + 1)
    | none =>
      let rest := pollRound polls (start + 1) k
      (rest.1, rest.2 + 1)

/-- The outer retry loop of `waitForConfirmation` (lines 97-126): each round
runs a fresh poll loop; a round that finds no successful receipt throws the
timeout error, which the round's catch swallows and retries unless it was the
last round (line 122).  Returns the outcome together with the total number of
receipt reads performed. -/
def waitRetries (polls : Nat → Option Receipt) (maxAttempts : Nat) :
    Nat → Nat → ConfirmResult × Nat
  | _, 0 => (ConfirmResult.noResult, 0)
  | start, rounds + 1 =>
    match pollRound polls start maxAttempts with
    | (some r, c) => (ConfirmResult.confirmed r, c)
    | (none, c) =>
      if rounds = 0 then (ConfirmResult.timeoutError, c)
      else
        let rest := waitRetries polls maxAttempts (start + maxAttempts) rounds
        (rest.1, c + rest.2)

/-- `WalletManager.waitForConfirmation(txHash, maxAttempts, retryCount)`
(lines 96-127), as a function of the poll oracle for that transaction hash.
Second component: total number of `getTransactionReceipt` reads performed. -/
def waitForConfirmation (polls : Nat → Option Receipt)
    (maxAttempts retryCount : Nat) : ConfirmResult × Nat :=
  waitRetries polls maxAttempts 0 retryCount

/-- The nonce-tracking state of a `WalletManager` instance:
`currentNonce` mirrors `this.currentNonce` (null initially, line 59), and
`fetches` counts the `getTransactionCount` network calls made so far
(it indexes the network oracle). -/
structure NonceState where
  currentNonce : Option Nat
  fetches : Nat
  deriving DecidableEq, Repr

/-- The state at construction time: `this.currentNonce = null`, no fetches. -/
def initialNonceState : NonceState := { currentNonce := none, fetches := 0 }

/-- `WalletManager.getNextNonce()` (lines 326-337): every call assigns
`this.currentNonce = await web3.eth.getTransactionCount(address, pending)`
(one network fetch per call — the comment on line 328 reads "Always get fresh
nonce from network"), saves that value, post-increments the field, and returns
the saved value. -/
def getNextNonce (net : Nat → Nat) (s : NonceState) : Nat × NonceState :=
  let fetched := net s.fetches
  (fetched, { currentNonce := some (fetched + 1), fetches := s.fetches + 1 })

/-- A sequence of `n` successive `getNextNonce` calls on one instance:
the list of returned nonces together with the final state. -/
def runNonceCalls (net : Nat → Nat) : NonceState → Nat → List Nat × NonceState
  | s, 0 => ([], s)
  | s, n + 1 =>
    let p := getNextNonce net s
    let rest := runNonceCalls net p.2 n
    (p.1 :: rest.1, rest.2)

/-- A wallet handle; only the address takes part in the modelled logic
(the signing capability is opaque). -/
structure Wallet where
  address : String
  deriving DecidableEq, Repr

/-- A transaction object as built by `processBatch` (lines 167-174 and
204-211).  `value` is an `Int` because the return-stage value is a BN
subtraction that the source never clamps at zero. -/
structure Tx where
  fromAddr : String
  toAddr : String
  value : Int
  gas : Nat
  gasPrice : Nat
  nonce : Nat
  deriving DecidableEq, Repr

/-- A per-wallet submission outcome object of `processBatch`:
`{ success, wallet, error }` (lines 181, 184, 219, 222); `error` is the
`error.message` string, present only on failure. -/
structure Outcome where
  success : Bool
  wallet : Wallet
  error : Option String
  deriving DecidableEq, Repr

/-- Outcome of one funding task (lines 164-186): success object without an
error field, or failure object carrying `error.message`, according to the
failure oracle. -/
def fundOutcomeOf (fundErr : Wallet → Option String) (w : Wallet) : Outcome :=
  match fundErr w with
  | none => { success := true, wallet := w, error := none }
  | some msg => { success := false, wallet := w, error := some msg }

/-- Outcome of one return task (lines 197-224), analogous. -/
def returnOutcomeOf (retErr : Wallet → Option String) (w : Wallet) : Outcome :=
  match retErr w with
  | none => { success := true, wallet := w, error := none }
  | some msg => { success := false, wallet := w, error := some msg }

/-- Step 1 of `processBatch` (lines 163-189): fund each wallet.  Each funding
transaction is built with a nonce obtained from `getNextNonce` and the batch
gas price, then signed, submitted and awaited; the try/catch around the task
produces the outcome object.  The rate limiter preserves task order, and
`Promise.all` returns results in task order, so the sequential fold models the
produced sequences; nonce issuance order is the task start order. -/
def fundStage (mainAddr : String) (fundValueWei gasPrice : Nat)
    (net : Nat → Nat) (fundErr : Wallet → Option String) :
    List Wallet → NonceState → List (Outcome × Tx) × NonceState
  | [], s => ([], s)
  | w :: ws, s =>
    let p := getNextNonce net s
    let tx : Tx :=
      { fromAddr := mainAddr, toAddr := w.address, value := (fundValueWei : Int),
        gas := GAS_LIMIT, gasPrice := gasPrice, nonce := p.1 }
    let rest := fundStage mainAddr fundValueWei gasPrice net fundErr ws p.2
    ((fundOutcomeOf fundErr w, tx) :: rest.1, rest.2)

/-- Step 2 of `processBatch` (lines 196-225): for each successfully funded
wallet, build the return transaction with
value = returnValue − GAS_LIMIT × gasPrice (lines 201-202, a BN subtraction
with no lower clamp) and nonce 0 (line 210, "New wallets always start with
nonce 0"), sign with the wallet's own key, submit, await. -/
def returnStage (mainAddr : String) (returnValueWei gasPrice : Nat)
    (retErr : Wallet → Option String) : List Wallet → List (Outcome × Tx)
  | [] => []
  | w :: ws =>
    let tx : Tx :=
      { fromAddr := w.address, toAddr := mainAddr,
        value := (returnValueWei : Int) - ((GAS_LIMIT * gasPrice : Nat) : Int),
        gas := GAS_LIMIT, gasPrice := gasPrice, nonce := 0 }
    (returnOutcomeOf retErr w, tx) :: returnStage mainAddr returnValueWei gasPrice retErr ws

/-- Everything `processBatch` produces that the claims inspect: the two
outcome sequences it returns (line 228), the transactions it built, and the
final nonce state of the instance. -/
structure BatchResult where
  fundResults : List Outcome
  returnResults : List Outcome
  fundTxs : List Tx
  returnTxs : List Tx
  nonceState : NonceState
  deriving DecidableEq, Repr

/-- `WalletManager.processBatch(wallets, fundAmount, returnPercentage)`
(lines 153-238).  Amount conversion: the source computes
fundValue = toWei(fundAmount) and
returnValue = toWei(fundAmount × returnPercentage / 100); here the fund value
is taken directly in wei and the nominal return value is the exact
`fundValueWei * returnPercentage / 100` (they agree whenever the source's
product has an exact wei value).  Step 2 filters the fund results to the
successfully funded wallets (lines 192-194). -/
def processBatch (mainAddr : String) (wallets : List Wallet)
    (fundValueWei returnPercentage gasPrice : Nat)
    (net : Nat → Nat) (s : NonceState)
    (fundErr retErr : Wallet → Option String) : BatchResult :=
  let returnValueWei := fundValueWei * returnPercentage / 100
  let fs := fundStage mainAddr fundValueWei gasPrice net fundErr wallets s
  let fundResults := fs.1.map Prod.fst
  let successfullyFunded := (fundResults.filter (fun o => o.success)).map (fun o => o.wallet)
  let rs := returnStage mainAddr returnValueWei gasPrice retErr successfullyFunded
  { fundResults := fundResults,
    returnResults := rs.map Prod.fst,
    fundTxs := fs.1.map Prod.snd,
    returnTxs := rs.map Prod.snd,
    nonceState := fs.2 }

/-- `WalletManager.createWallets(count)` (lines 134-144): creates `count` new
accounts and returns them.  Key generation is opaque; the model produces
`count` distinct handles. -/
def createWallets (count : Nat) : List Wallet :=
  (List.range count).map (fun k => { address := Nat.repr k })

/-- The batch loop of `createAndManageWallets` (lines 275-314):
for (i = 0; i < walletCount; i += batchSize) the chunk size is
min(batchSize, walletCount − i).  The fuel argument bounds the number of
iterations; `walletCount` iterations suffice whenever batchSize ≥ 1. -/
def chunkSizesAux (batchSize walletCount : Nat) : Nat → Nat → List Nat
  | 0, _ => []
  | fuel + 1, i =>
    if i < walletCount then
      min batchSize (walletCount - i) ::
        chunkSizesAux batchSize walletCount fuel (i + batchSize)
    else []

/-- The sequence of chunk sizes processed by a completed run. -/
def chunkSizes (batchSize walletCount : Nat) : List Nat :=
  chunkSizesAux batchSize walletCount walletCount 0

/-- The final value of `results.created`: each chunk adds
`newWallets.length` for the wallets created in that chunk (line 281). -/
def createdTotal (batchSize walletCount : Nat) : Nat :=
  ((chunkSizes batchSize walletCount).map (fun sz => (createWallets sz).length)).sum

/-- The stage tag recorded in a failed operation (lines 292, 303). -/
inductive Stage where
  | funding
  | returning
  deriving DecidableEq, Repr

/-- Semantics of the JavaScript property access `x.message` where `x` is the
string that `processBatch` stored in the outcome's error field (lines 184 and
222 store `error.message`, a string): a string primitive has no `message`
property, so the access on lines 291 and 302 evaluates to undefined,
modelled as `none`. -/
def messageOfString (_ : String) : Option String := none

/-- The value recorded as the report's error field: `result.error.message`
applied to the outcome's stored error (a string when present). -/
def recordedError (e : Option String) : Option String :=
  match e with
  | some s => messageOfString s
  | none => none

/-- An entry of `results.failed` (lines 289-293 and 300-304). -/
structure FailedOp where
  address : String
  error : Option String
  stage : Stage
  deriving DecidableEq, Repr

/-- The failed-operation entry pushed for a failed funding outcome
(lines 289-293). -/
def fundFailedOp (r : Outcome) : FailedOp :=
  { address := r.wallet.address, error := recordedError r.error, stage := Stage.funding }

/-- The failed-operation entry pushed for a failed return outcome
(lines 300-304). -/
def returnFailedOp (r : Outcome) : FailedOp :=
  { address := r.wallet.address, error := recordedError r.error, stage := Stage.returning }

/-- The `results` object of `createAndManageWallets` (lines 268-272). -/
structure Results where
  successful : List String
  failed : List FailedOp
  created : Nat
  deriving DecidableEq, Repr

/-- Initial `results` value (lines 268-272). -/
def emptyResults : Results := { successful := [], failed := [], created := 0 }

/-- The forEach over `fundResults` (lines 287-295): push a funding
failed-operation for each unsuccessful outcome. -/
def recordFundResults (rs : List Outcome) (res : Results) : Results :=
  rs.foldl (fun acc r =>
    if r.success then acc
    else { acc with failed := acc.failed ++ [fundFailedOp r] }) res

/-- The forEach over `returnResults` (lines 298-308): push a returning
failed-operation for each unsuccessful outcome, and the address onto
`successful` for each successful one. -/
def recordReturnResults (rs : List Outcome) (res : Results) : Results :=
  rs.foldl (fun acc r =>
    if r.success then { acc with successful := acc.successful ++ [r.wallet.address] }
    else { acc with failed := acc.failed ++ [returnFailedOp r] }) res

/-- The per-chunk aggregation of `createAndManageWallets` (lines 280-308),
folded over the run's chunks.  Each chunk contributes its created count
(line 281, the fund-results list has one entry per created wallet) and its
two outcome sequences. -/
def runReportFrom (res : Results) :
    List (List Outcome × List Outcome) → Results
  | [] => res
  | b :: rest =>
    runReportFrom
      (recordReturnResults b.2
        (recordFundResults b.1 { res with created := res.created + b.1.length }))
      rest

/-- The final report of a completed run whose chunks produced the given
(fundResults, returnResults) pairs. -/
def runReport (bs : List (List Outcome × List Outcome)) : Results :=
  runReportFrom emptyResults bs

/-- All return-stage outcomes of a run, in report order. -/
def allReturns : List (List Outcome × List Outcome) → List Outcome
  | [] => []
  | b :: rest => b.2 ++ allReturns rest

/-- Failed-operation entries contributed by one chunk's fund results
(the pushes of lines 287-295), in push order. -/
def fundFailedOps (rs : List Outcome) : List FailedOp :=
  (rs.filter (fun r => !r.success)).map fundFailedOp

/-- Failed-operation entries contributed by one chunk's return results
(the pushes of lines 298-304), in push order. -/
def returnFailedOps (rs : List Outcome) : List FailedOp :=
  (rs.filter (fun r => !r.success)).map returnFailedOp

/-- All failed-operation entries of a run, in report order. -/
def reportFailedOps : List (List Outcome × List Outcome) → List FailedOp
  | [] => []
  | b :: rest => fundFailedOps b.1 ++ returnFailedOps b.2 ++ reportFailedOps rest

/-- Whether a failed operation carries the returning stage tag. -/
def stageIsReturning (f : FailedOp) : Bool :=
  match f.stage with
  | Stage.returning => true
  | Stage.funding => false

/-- Addresses recorded in `results.failed` with stage returning. -/
def returningFailedAddresses (res : Results) : List String :=
  (res.failed.filter stageIsReturning).map FailedOp.address

/-- A finite-decimal value units / 10^scale, as carried by the JavaScript
values that feed the pre-flight computation of `createAndManageWallets`
(lines 256-262): the number `fundAmount * walletCount` and the string
produced by `web3.utils.fromWei` (which renders wei / 10^18). -/
structure DecStr where
  units : Nat
  scale : Nat
  deriving DecidableEq, Repr

/-- Drop trailing zero digits of a fractional part. -/
def stripTrailingZeros (l : List Char) : List Char :=
  (l.reverse.dropWhile (fun c => c = '0')).reverse

/-- Decimal rendering of a finite-decimal value, as produced both by
`fromWei` and by JavaScript number-to-string conversion on such values:
integer part, then a point and the fractional digits only when the
fractional part is nonzero. -/
def renderDecStr (d : DecStr) : String :=
  let ip := Nat.repr (d.units / 10 ^ d.scale)
  let r := d.units % 10 ^ d.scale
  if r = 0 then ip
  else
    let padded := List.replicate (d.scale - (Nat.repr r).length) '0' ++ (Nat.repr r).data
    ip ++ "." ++ String.mk (stripTrailingZeros padded)

/-- Split a character list at every point character. -/
def splitOnDot : List Char → List (List Char)
  | [] => [[]]
  | c :: rest =>
    let ps := splitOnDot rest
    if c = '.' then [] :: ps
    else
      match ps with
      | [] => [[c]]
      | p :: tail => (c :: p) :: tail

/-- Parse a nonempty all-digit character list. -/
def digitsToNat? (l : List Char) : Option Nat :=
  if l.isEmpty then none
  else
    l.foldl (fun acc c =>
      match acc with
      | none => none
      | some n => if c.isDigit then some (n * 10 + (c.toNat - 48)) else none)
      (some 0)

/-- `web3.utils.toWei(s, ether)` on a decimal string: fails on a string with
more than one point (as the concatenated pre-flight string has), otherwise
scales by 10^18. -/
def toWeiEther (s : String) : Except String Nat :=
  match splitOnDot s.data with
  | [i] =>
    match digitsToNat? i with
    | some n => Except.ok (n * 10 ^ 18)
    | none => Except.error "invalid number value"
  | [i, f] =>
    if f.length > 18 then Except.error "too many decimal places"
    else
      match digitsToNat? i, digitsToNat? f with
      | some n, some fr => Except.ok (n * 10 ^ 18 + fr * 10 ^ (18 - f.length))
      | _, _ => Except.error "invalid number value"
  | _ => Except.error "more than one decimal point"

/-- `WalletManager.checkMainBalance(requiredAmount)` (lines 76-87) applied to
the run's required-amount value, which reaches it as a string (see
`preflightTotalRequired`): converts with toWei and compares with the source
balance, throwing when the balance is smaller — or when the conversion
itself fails. -/
def checkMainBalance (balanceWei : Nat) (requiredAmountStr : String) :
    Except String Bool :=
  match toWeiEther requiredAmountStr with
  | Except.error e => Except.error e
  | Except.ok requiredWei =>
    if balanceWei < requiredWei then Except.error "Insufficient balance"
    else Except.ok true

/-- The `totalRequired` value of `createAndManageWallets` (lines 256-262):
`estimatedGasCost = fromWei(gasPrice * gasLimit * 2 * walletCount)` is a
STRING, so the JavaScript `+` in
`(fundAmount * walletCount) + estimatedGasCost` is string concatenation of
the number's decimal rendering with the fromWei string. -/
def preflightTotalRequired (fundAmount : DecStr) (walletCount gasPrice : Nat) :
    String :=
  renderDecStr { units := fundAmount.units * walletCount, scale := fundAmount.scale } ++
    renderDecStr { units := gasPrice * (GAS_LIMIT * 2 * walletCount), scale := 18 }

/-- The pre-flight of `createAndManageWallets` (lines 254-265): compute
`totalRequired` and verify the source balance covers it.  An `Except.error`
is the abort path (caught on line 317 and rethrown as a fatal run error)
before any wallet is created. -/
def preflight (fundAmount : DecStr) (walletCount gasPrice balanceWei : Nat) :
    Except String Bool :=
  checkMainBalance balanceWei (preflightTotalRequired fundAmount walletCount gasPrice)

/-! Helper lemmas. -/

/-- Each `getNextNonce` call performs one network fetch, so the fetch count
after n calls grows by n. -/
theorem runNonceCalls_fetches_aux (net : Nat → Nat) :
    ∀ (n : Nat) (s : NonceState), (runNonceCalls net s n).2.fetches = s.fetches + n := by
  intro n
  induction n with
  | zero => intro s; simp [runNonceCalls]
  | succ n ih =>
    intro s
    simp only [runNonceCalls, getNextNonce, ih]
    omega

/-- The nonces returned by n successive `getNextNonce` calls are exactly the
values of the n successive network fetches. -/
theorem runNonceCalls_values_aux (net : Nat → Nat) :
    ∀ (n : Nat) (s : NonceState),
      (runNonceCalls net s n).1 = (List.range n).map (fun k => net (s.fetches + k)) := by
  intro n
  induction n with
  | zero => intro s; simp [runNonceCalls]
  | succ n ih =>
    intro s
    simp only [runNonceCalls, getNextNonce, ih, List.range_succ_eq_map, List.map_cons,
      List.map_map, List.cons.injEq]
    refine ⟨by simp, List.map_congr_left fun a _ => ?_⟩
    simp only [Function.comp_apply]
    congr 1
    omega

/-! Claim theorems. -/

/-- Claim C1 (code bug): in `waitForConfirmation`, a receipt with
status = false is supposed to terminate the call immediately with the
on-chain-failure error, but the throw on line 110 is inside the try block
whose catch (line 112) swallows it, so the code keeps polling: on a poll
trace whose every read returns a status = false receipt, the call performs
all 20 × 3 = 60 receipt reads and ends with the timeout error, never the
on-chain-failure error. -/
theorem waitForConfirmation_swallows_onchain_failure :
    waitForConfirmation (fun _ => some { status := false })
        CONFIRMATION_ATTEMPTS RETRY_COUNT =
      (ConfirmResult.timeoutError, 60) := by decide

/-- Claim C2 counterexample: two `getNextNonce` calls against a network
whose pending count stays at 7 perform two network fetches (the claim says
one) and the second call returns the fetched 7, not the local increment 8. -/
theorem getNextNonce_one_fetch_counterexample :
    ¬ (runNonceCalls (fun _ => 7) initialNonceState 2 =
        ([7, 8], { currentNonce := some 8, fetches := 1 })) := by decide

/-- Claim C2 (amended): every `getNextNonce` call performs one network fetch
of the pending transaction count — n calls perform n fetches, not one. -/
theorem getNextNonce_fetch_per_call (net : Nat → Nat) (n : Nat) :
    (runNonceCalls net initialNonceState n).2.fetches = n := by
  simpa [initialNonceState] using runNonceCalls_fetches_aux net n initialNonceState

/-- Claim C3 counterexample: when the network-observed pending count does not
advance between two calls (it returns 5 both times), `getNextNonce` issues
the duplicate nonce sequence [5, 5] — not pairwise distinct, hence not a
contiguous increasing sequence from the baseline. -/
theorem issued_nonces_duplicate_counterexample :
    ¬ ((runNonceCalls (fun _ => 5) initialNonceState 2).1.Nodup) := by decide

/-- Claim C3 (amended): the nonce sequence issued by n `getNextNonce` calls
is exactly the sequence of network-observed pending transaction counts, one
fetch per call; it is distinct and contiguous from the baseline only when
the observed counts themselves advance by exactly one per call. -/
theorem issued_nonces_are_fetched_counts (net : Nat → Nat) (n : Nat) :
    (runNonceCalls net initialNonceState n).1 = (List.range n).map net := by
  have h := runNonceCalls_values_aux net n initialNonceState
  simpa [initialNonceState] using h

/-- Summing the chunk sizes of the batch loop from position i yields the
remaining wallet count, provided the fuel covers the remaining iterations. -/
theorem chunkSizesAux_sum (b n : Nat) (hb : 0 < b) :
    ∀ (fuel i : Nat), n - i ≤ fuel → (chunkSizesAux b n fuel i).sum = n - i := by
  intro fuel
  induction fuel with
  | zero => intro i h; simp only [chunkSizesAux, List.sum_nil]; omega
  | succ fuel ih =>
    intro i h
    by_cases hi : i < n
    · have hrec := ih (i + b) (by omega)
      simp only [chunkSizesAux, if_pos hi, List.sum_cons, hrec]
      rcases Nat.le_total b (n - i) with hc | hc
      · rw [Nat.min_eq_left hc]; omega
      · rw [Nat.min_eq_right hc]; omega
    · simp only [chunkSizesAux, if_neg hi, List.sum_nil]
      omega

/-- Claim C6: for every positive walletCount (and a positive batch size,
without which the batch loop does not terminate), a run that completes all
chunks has created exactly walletCount wallets. -/
theorem created_equals_walletCount (batchSize walletCount : Nat)
    (hb : 0 < batchSize) (hn : 0 < walletCount) :
    createdTotal batchSize walletCount = walletCount := by
  have h := chunkSizesAux_sum batchSize walletCount hb walletCount 0 (by omega)
  simp only [createdTotal, createWallets, List.length_map, List.length_range,
    List.map_id']
  simpa [chunkSizes] using h

/-- Witness for C6 at batchSize 3, walletCount 7 (chunks 3 + 3 + 1). -/
theorem created_equals_walletCount_witness :
    0 < 3 ∧ 0 < 7 ∧ createdTotal 3 7 = 7 :=
  ⟨by decide, by decide, created_equals_walletCount 3 7 (by decide) (by decide)⟩

/-- The fund-stage outcome sequence is one outcome per wallet, in order. -/
theorem fundStage_results (m : String) (fv gp : Nat) (net : Nat → Nat)
    (fe : Wallet → Option String) :
    ∀ (ws : List Wallet) (s : NonceState),
      (fundStage m fv gp net fe ws s).1.map Prod.fst = ws.map (fundOutcomeOf fe) := by
  intro ws
  induction ws with
  | nil => intro s; simp [fundStage]
  | cons w ws ih => intro s; simp [fundStage, ih]

/-- The fund stage consumes one sequencer fetch per wallet. -/
theorem fundStage_fetches (m : String) (fv gp : Nat) (net : Nat → Nat)
    (fe : Wallet → Option String) :
    ∀ (ws : List Wallet) (s : NonceState),
      (fundStage m fv gp net fe ws s).2.fetches = s.fetches + ws.length := by
  intro ws
  induction ws with
  | nil => intro s; simp [fundStage]
  | cons w ws ih =>
    intro s
    simp only [fundStage, ih, getNextNonce, List.length_cons]
    omega

/-- The return-stage outcome sequence is one outcome per successfully funded
wallet, in order. -/
theorem returnStage_results (m : String) (rv gp : Nat)
    (re : Wallet → Option String) :
    ∀ ws : List Wallet,
      (returnStage m rv gp re ws).map Prod.fst = ws.map (returnOutcomeOf re) := by
  intro ws
  induction ws with
  | nil => simp [returnStage]
  | cons w ws ih => simp [returnStage, ih]

/-- The return-stage transactions, one per successfully funded wallet: value
is the nominal return value minus the gas reserve, the nonce is 0. -/
theorem returnStage_txs (m : String) (rv gp : Nat)
    (re : Wallet → Option String) :
    ∀ ws : List Wallet,
      (returnStage m rv gp re ws).map Prod.snd = ws.map (fun w =>
        { fromAddr := w.address, toAddr := m,
          value := (rv : Int) - ((GAS_LIMIT * gp : Nat) : Int),
          gas := GAS_LIMIT, gasPrice := gp, nonce := 0 }) := by
  intro ws
  induction ws with
  | nil => simp [returnStage]
  | cons w ws ih => simp [returnStage, ih]

/-- A fund outcome keeps its wallet. -/
theorem fundOutcomeOf_wallet (fe : Wallet → Option String) (w : Wallet) :
    (fundOutcomeOf fe w).wallet = w := by
  cases h : fe w <;> simp [fundOutcomeOf, h]

/-- A return outcome keeps its wallet. -/
theorem returnOutcomeOf_wallet (re : Wallet → Option String) (w : Wallet) :
    (returnOutcomeOf re w).wallet = w := by
  cases h : re w <;> simp [returnOutcomeOf, h]

/-- A fund outcome is successful exactly when the failure oracle is silent. -/
theorem fundOutcomeOf_success (fe : Wallet → Option String) (w : Wallet) :
    (fundOutcomeOf fe w).success = true ↔ fe w = none := by
  cases h : fe w <;> simp [fundOutcomeOf, h]

/-- Claim C4 counterexample: a batch with fund value 10^12 wei, return
percentage 95 and gas price 10^9 wei produces a return transaction whose
value is negative — the source subtracts the gas reserve from the nominal
return value with no lower bound, so the claimed nonnegativity fails for
these positive inputs. -/
theorem return_value_negative_counterexample :
    ((processBatch "M" [{ address := "A" }] (10 ^ 12) 95 (10 ^ 9) (fun _ => 0)
          initialNonceState (fun _ => none) (fun _ => none)).returnTxs.map Tx.value) =
        [(-20050000000000 : Int)] ∧
      ((-20050000000000 : Int) < 0) := by decide

/-- Claim C4 (amended): every return transaction's value equals the nominal
return value (fundValue × returnPercentage / 100, in wei) minus exactly
GAS_LIMIT × gasPrice; the difference is not clamped, and it is nonnegative
exactly when the gas reserve does not exceed the nominal return value. -/
theorem return_value_exact_gas_adjustment (m : String) (ws : List Wallet)
    (fv pct gp : Nat) (net : Nat → Nat) (s : NonceState)
    (fe re : Wallet → Option String) (tx : Tx)
    (htx : tx ∈ (processBatch m ws fv pct gp net s fe re).returnTxs) :
    tx.value = ((fv * pct / 100 : Nat) : Int) - ((GAS_LIMIT * gp : Nat) : Int) ∧
      (0 ≤ tx.value ↔ GAS_LIMIT * gp ≤ fv * pct / 100) := by
  simp only [processBatch] at htx
  rw [returnStage_txs] at htx
  obtain ⟨w, hw, rfl⟩ := List.mem_map.mp htx
  refine ⟨rfl, ?_⟩
  simp only
  omega

/-- Witness for C4: with fund value 1 ETH (10^18 wei), 95 %, gas price
10^9 wei, the single return transaction has value
950000000000000000 − 21000000000000 = 949979000000000000 ≥ 0. -/
theorem return_value_exact_gas_adjustment_witness :
    ({ fromAddr := "A", toAddr := "M", value := 949979000000000000,
        gas := 21000, gasPrice := 1000000000, nonce := 0 } : Tx) ∈
        (processBatch "M" [{ address := "A" }] (10 ^ 18) 95 (10 ^ 9) (fun _ => 0)
          initialNonceState (fun _ => none) (fun _ => none)).returnTxs ∧
      ((949979000000000000 : Int) =
          ((10 ^ 18 * 95 / 100 : Nat) : Int) - ((GAS_LIMIT * 10 ^ 9 : Nat) : Int) ∧
        (0 ≤ (949979000000000000 : Int) ↔
          GAS_LIMIT * 10 ^ 9 ≤ 10 ^ 18 * 95 / 100)) :=
  ⟨by decide,
    return_value_exact_gas_adjustment "M" [{ address := "A" }] (10 ^ 18) 95 (10 ^ 9)
      (fun _ => 0) initialNonceState (fun _ => none) (fun _ => none)
      { fromAddr := "A", toAddr := "M", value := 949979000000000000, gas := 21000, gasPrice := 1000000000, nonce := 0 }
      (by decide)⟩

/-- Claim C5: an account whose funding outcome is unsuccessful never appears
among the wallets of the return-stage outcome sequence — `processBatch`
builds return transactions only for wallets filtered by a successful funding
outcome (lines 192-194). -/
theorem failed_funding_never_returned (m : String) (ws : List Wallet)
    (fv pct gp : Nat) (net : Nat → Nat) (s : NonceState)
    (fe re : Wallet → Option String) (o : Outcome)
    (ho : o ∈ (processBatch m ws fv pct gp net s fe re).fundResults)
    (hfail : o.success = false) :
    o.wallet ∉ (processBatch m ws fv pct gp net s fe re).returnResults.map
      Outcome.wallet := by
  simp only [processBatch] at ho ⊢
  rw [fundStage_results] at ho
  obtain ⟨w, hw, rfl⟩ := List.mem_map.mp ho
  rw [fundStage_results, returnStage_results, List.map_map]
  intro hmem
  rw [fundOutcomeOf_wallet] at hmem
  have hmem' : w ∈ (((ws.map (fundOutcomeOf fe)).filter (fun o => o.success)).map
      (fun o => o.wallet)) := by
    simpa [Function.comp, returnOutcomeOf_wallet] using hmem
  obtain ⟨o2, ho2, ho2w⟩ := List.mem_map.mp hmem'
  obtain ⟨ho2mem, ho2succ⟩ := List.mem_filter.mp ho2
  obtain ⟨w2, hw2, rfl⟩ := List.mem_map.mp ho2mem
  rw [fundOutcomeOf_wallet] at ho2w
  subst ho2w
  rw [ho2succ] at hfail
  exact Bool.noConfusion hfail

/-- Witness for C5: wallet A fails funding, wallet B succeeds; A's failed
outcome is in the fund results and A is absent from the return wallets. -/
theorem failed_funding_never_returned_witness :
    ({ success := false, wallet := { address := "A" }, error := some "boom" } :
        Outcome) ∈
        (processBatch "M" [{ address := "A" }, { address := "B" }] (10 ^ 15) 95
          (10 ^ 9) (fun _ => 3) initialNonceState
          (fun w => if w.address = "A" then some "boom" else none)
          (fun _ => none)).fundResults ∧
      ({ success := false, wallet := { address := "A" }, error := some "boom" } :
          Outcome).success = false ∧
      ({ success := false, wallet := { address := "A" }, error := some "boom" } :
          Outcome).wallet ∉
        (processBatch "M" [{ address := "A" }, { address := "B" }] (10 ^ 15) 95
          (10 ^ 9) (fun _ => 3) initialNonceState
          (fun w => if w.address = "A" then some "boom" else none)
          (fun _ => none)).returnResults.map Outcome.wallet :=
  ⟨by decide, by decide,
    failed_funding_never_returned "M" [{ address := "A" }, { address := "B" }]
      (10 ^ 15) 95 (10 ^ 9) (fun _ => 3) initialNonceState
      (fun w => if w.address = "A" then some "boom" else none) (fun _ => none) _
      (by decide) (by decide)⟩

/-- Claim C9: every return-stage transaction is signed with nonce 0
(line 210), and the shared source-account sequencer is untouched by the
return stage — the instance's fetch count after `processBatch` equals the
count before plus one fetch per funding task only. -/
theorem return_nonce_zero_no_sequencer (m : String) (ws : List Wallet)
    (fv pct gp : Nat) (net : Nat → Nat) (s : NonceState)
    (fe re : Wallet → Option String) :
    ((processBatch m ws fv pct gp net s fe re).returnTxs.all
        fun tx => tx.nonce == 0) = true ∧
      (processBatch m ws fv pct gp net s fe re).nonceState.fetches =
        s.fetches + ws.length := by
  constructor
  · simp only [processBatch]
    rw [returnStage_txs, List.all_eq_true]
    intro tx htx
    obtain ⟨w, hw, rfl⟩ := List.mem_map.mp htx
    rfl
  · simp only [processBatch]
    rw [fundStage_fetches]

/-- Unfolding one step of the fund-results forEach. -/
theorem recordFund_cons (r : Outcome) (rs : List Outcome) (res : Results) :
    recordFundResults (r :: rs) res =
      recordFundResults rs
        (if r.success then res
         else { res with failed := res.failed ++ [fundFailedOp r] }) := rfl

/-- Unfolding one step of the return-results forEach. -/
theorem recordReturn_cons (r : Outcome) (rs : List Outcome) (res : Results) :
    recordReturnResults (r :: rs) res =
      recordReturnResults rs
        (if r.success then { res with successful := res.successful ++ [r.wallet.address] }
         else { res with failed := res.failed ++ [returnFailedOp r] }) := rfl

/-- Recording fund results never touches the successful list. -/
theorem recordFund_successful (rs : List Outcome) :
    ∀ res : Results, (recordFundResults rs res).successful = res.successful := by
  induction rs with
  | nil => intro res; rfl
  | cons r rs ih =>
    intro res
    rw [recordFund_cons]
    by_cases hr : r.success <;> simp [hr, ih]

/-- Recording fund results appends exactly the funding failed-operations. -/
theorem recordFund_failed (rs : List Outcome) :
    ∀ res : Results,
      (recordFundResults rs res).failed = res.failed ++ fundFailedOps rs := by
  induction rs with
  | nil => intro res; simp [recordFundResults, fundFailedOps]
  | cons r rs ih =>
    intro res
    rw [recordFund_cons]
    by_cases hr : r.success <;>
      simp [hr, ih, fundFailedOps, List.filter_cons]

/-- Recording return results appends exactly the successful addresses. -/
theorem recordReturn_successful (rs : List Outcome) :
    ∀ res : Results,
      (recordReturnResults rs res).successful =
        res.successful ++
          (rs.filter (fun r => r.success)).map (fun r => r.wallet.address) := by
  induction rs with
  | nil => intro res; simp [recordReturnResults]
  | cons r rs ih =>
    intro res
    rw [recordReturn_cons]
    by_cases hr : r.success <;> simp [hr, ih, List.filter_cons]

/-- Recording return results appends exactly the returning failed-operations. -/
theorem recordReturn_failed (rs : List Outcome) :
    ∀ res : Results,
      (recordReturnResults rs res).failed = res.failed ++ returnFailedOps rs := by
  induction rs with
  | nil => intro res; simp [recordReturnResults, returnFailedOps]
  | cons r rs ih =>
    intro res
    rw [recordReturn_cons]
    by_cases hr : r.success <;>
      simp [hr, ih, returnFailedOps, List.filter_cons]

/-- The successful list of the aggregated report: the addresses of the
successful return-stage outcomes, in order. -/
theorem runReportFrom_successful :
    ∀ (bs : List (List Outcome × List Outcome)) (res : Results),
      (runReportFrom res bs).successful =
        res.successful ++
          ((allReturns bs).filter (fun r => r.success)).map (fun r => r.wallet.address) := by
  intro bs
  induction bs with
  | nil => intro res; simp [runReportFrom, allReturns]
  | cons b bs ih =>
    intro res
    simp only [runReportFrom, ih, recordReturn_successful, recordFund_successful,
      allReturns, List.filter_append, List.map_append, List.append_assoc]

/-- The failed list of the aggregated report: the pushed failed-operations,
in report order. -/
theorem runReportFrom_failed :
    ∀ (bs : List (List Outcome × List Outcome)) (res : Results),
      (runReportFrom res bs).failed = res.failed ++ reportFailedOps bs := by
  intro bs
  induction bs with
  | nil => intro res; simp [runReportFrom, reportFailedOps]
  | cons b bs ih =>
    intro res
    simp only [runReportFrom, ih, recordReturn_failed, recordFund_failed,
      reportFailedOps, List.append_assoc]

/-- Funding failed-operations never carry the returning stage tag. -/
theorem fundFailedOps_returning (rs : List Outcome) :
    (fundFailedOps rs).filter stageIsReturning = [] := by
  induction rs with
  | nil => simp [fundFailedOps]
  | cons r rs ih =>
    by_cases hr : !r.success <;>
      simp [fundFailedOps, List.filter_cons, hr, stageIsReturning, fundFailedOp] <;>
      simpa [fundFailedOps] using ih

/-- Returning failed-operations all carry the returning stage tag. -/
theorem returnFailedOps_returning (rs : List Outcome) :
    (returnFailedOps rs).filter stageIsReturning = returnFailedOps rs := by
  induction rs with
  | nil => simp [returnFailedOps]
  | cons r rs ih =>
    by_cases hr : !r.success <;>
      simp [returnFailedOps, List.filter_cons, hr, stageIsReturning, returnFailedOp] <;>
      simpa [returnFailedOps] using ih

/-- Addresses of the returning failed-operations are the addresses of the
unsuccessful return outcomes. -/
theorem returnFailedOps_addresses (rs : List Outcome) :
    (returnFailedOps rs).map FailedOp.address =
      (rs.filter (fun r => !r.success)).map (fun r => r.wallet.address) := by
  simp [returnFailedOps, List.map_map, Function.comp, returnFailedOp]

/-- The returning-stage failed addresses of the aggregated report are the
addresses of the unsuccessful return-stage outcomes, in order. -/
theorem report_returning_failed_addresses (bs : List (List Outcome × List Outcome)) :
    returningFailedAddresses (runReport bs) =
      ((allReturns bs).filter (fun r => !r.success)).map (fun r => r.wallet.address) := by
  rw [returningFailedAddresses, runReport, runReportFrom_failed]
  simp only [emptyResults, List.nil_append]
  induction bs with
  | nil => simp [reportFailedOps, allReturns]
  | cons b bs ih =>
    simp only [reportFailedOps, allReturns, List.filter_append, List.map_append,
      fundFailedOps_returning, returnFailedOps_returning, returnFailedOps_addresses,
      List.nil_append, ih]

/-- Claim C7: in the final report of a completed run whose return-stage
accounts have pairwise distinct addresses, every account that reached the
return stage lands in exactly one of the two report sequences — in
`successful` when its return outcome succeeded, among the returning-stage
entries of `failed` otherwise, never in both and never in neither. -/
theorem report_partitions_return_stage (bs : List (List Outcome × List Outcome))
    (hnodup : ((allReturns bs).map (fun r => r.wallet.address)).Nodup)
    (r : Outcome) (hr : r ∈ allReturns bs) :
    (r.success = true →
        r.wallet.address ∈ (runReport bs).successful ∧
        r.wallet.address ∉ returningFailedAddresses (runReport bs)) ∧
      (r.success = false →
        r.wallet.address ∉ (runReport bs).successful ∧
        r.wallet.address ∈ returningFailedAddresses (runReport bs)) := by
  have hsucc : (runReport bs).successful =
      ((allReturns bs).filter (fun r => r.success)).map (fun r => r.wallet.address) := by
    rw [runReport, runReportFrom_successful]
    simp [emptyResults]
  have hfail := report_returning_failed_addresses bs
  constructor
  · intro hs
    constructor
    · rw [hsucc]
      exact List.mem_map_of_mem _ (List.mem_filter.mpr ⟨hr, by simp [hs]⟩)
    · rw [hfail]
      intro hmem
      obtain ⟨q, hq, haddr⟩ := List.mem_map.mp hmem
      obtain ⟨hqmem, hqfail⟩ := List.mem_filter.mp hq
      have hqr : q = r := List.inj_on_of_nodup_map hnodup hqmem hr haddr
      subst hqr
      rw [hs] at hqfail
      exact Bool.noConfusion hqfail
  · intro hs
    constructor
    · rw [hsucc]
      intro hmem
      obtain ⟨q, hq, haddr⟩ := List.mem_map.mp hmem
      obtain ⟨hqmem, hqsucc⟩ := List.mem_filter.mp hq
      have hqr : q = r := List.inj_on_of_nodup_map hnodup hqmem hr haddr
      subst hqr
      rw [hs] at hqsucc
      exact Bool.noConfusion hqsucc
    · rw [hfail]
      exact List.mem_map_of_mem _ (List.mem_filter.mpr ⟨hr, by simp [hs]⟩)

/-- Witness for C7: one chunk, wallet A funded and returned successfully,
wallet B funded but its return failed; B's address is absent from the
successful list and present among the returning-stage failed addresses. -/
theorem report_partitions_return_stage_witness :
    ((allReturns [([{ success := true, wallet := { address := "A" }, error := none }],
          [{ success := true, wallet := { address := "A" }, error := none },
            { success := false, wallet := { address := "B" }, error := some "err" }])]).map
        (fun r => r.wallet.address)).Nodup ∧
      ({ success := false, wallet := { address := "B" }, error := some "err" } :
          Outcome) ∈
        allReturns [([{ success := true, wallet := { address := "A" }, error := none }],
          [{ success := true, wallet := { address := "A" }, error := none },
            { success := false, wallet := { address := "B" }, error := some "err" }])] ∧
      (({ success := false, wallet := { address := "B" }, error := some "err" } :
            Outcome).wallet.address ∉
          (runReport [([{ success := true, wallet := { address := "A" }, error := none }],
            [{ success := true, wallet := { address := "A" }, error := none },
              { success := false, wallet := { address := "B" }, error := some "err" }])]).successful ∧
        ({ success := false, wallet := { address := "B" }, error := some "err" } :
            Outcome).wallet.address ∈
          returningFailedAddresses
            (runReport [([{ success := true, wallet := { address := "A" }, error := none }],
              [{ success := true, wallet := { address := "A" }, error := none },
                { success := false, wallet := { address := "B" }, error := some "err" }])])) :=
  ⟨by decide, by decide,
    (report_partitions_return_stage
        [([{ success := true, wallet := { address := "A" }, error := none }],
          [{ success := true, wallet := { address := "A" }, error := none },
            { success := false, wallet := { address := "B" }, error := some "err" }])]
        (by decide)
        { success := false, wallet := { address := "B" }, error := some "err" }
        (by decide)).2 (by decide)⟩

/-- Claim C10: every entry of the final report's failed list has an
undefined error detail — `processBatch` stores the error's message string,
and `createAndManageWallets` then reads `.message` off that string
(lines 291, 302), which yields undefined. -/
theorem report_failed_error_undefined (bs : List (List Outcome × List Outcome))
    (f : FailedOp) (hf : f ∈ (runReport bs).failed) : f.error = none := by
  rw [runReport, runReportFrom_failed] at hf
  simp only [emptyResults, List.nil_append] at hf
  induction bs with
  | nil => simp [reportFailedOps] at hf
  | cons b bs ih =>
    simp only [reportFailedOps, List.mem_append] at hf
    rcases hf with (hf | hf) | hf
    · obtain ⟨r, hrmem, rfl⟩ := List.mem_map.mp hf
      show recordedError r.error = none
      cases r.error <;> rfl
    · obtain ⟨r, hrmem, rfl⟩ := List.mem_map.mp hf
      show recordedError r.error = none
      cases r.error <;> rfl
    · exact ih hf

/-- Witness for C10: a run with one failed funding records that operation
with an undefined (none) error field. -/
theorem report_failed_error_undefined_witness :
    ({ address := "A", error := none, stage := Stage.funding } : FailedOp) ∈
        (runReport [([{ success := false, wallet := { address := "A" }, error := some "boom" }], [])]).failed ∧
      ({ address := "A", error := none, stage := Stage.funding } : FailedOp).error =
        none :=
  ⟨by decide,
    report_failed_error_undefined
      [([{ success := false, wallet := { address := "A" }, error := some "boom" }], [])]
      { address := "A", error := none, stage := Stage.funding } (by decide)⟩

/-- Claim C8 (code bug): the pre-flight of `createAndManageWallets` never
performs the claimed balance comparison on realistic inputs — fromWei
returns a string, so `totalRequired` is the string concatenation of the two
decimal renderings; with fundAmount 1.5 ETH, one wallet and gas price 10^9
wei it is the string "1.50.000042", whose toWei conversion fails, so the run
aborts for EVERY balance, including balances far above the required total. -/
theorem preflight_aborts_regardless_of_balance (balanceWei : Nat) :
    preflight { units := 15, scale := 1 } 1 (10 ^ 9) balanceWei =
      Except.error "more than one decimal point" := rfl
